import Mathlib

/-!
Shallow embedding of `src/Classifier.py` from the repository
`Classification-with-auto-sklearn`, together with theorems about it.

Python strings are modelled as `List Char`; pandas `DataFrame`s as ordered
association lists from column names to columns; `np.ndarray` results of the
wrapped AutoML engine as an abstract concrete type; raised exceptions as
`Except`/`Option`; the filesystem touched by `joblib.dump`/`joblib.load`,
`os.makedirs` and `os.path.exists` as an explicit record of directories and
stored objects.  The external `autosklearn` engine's behaviour (`fit`,
`predict`, `predict_proba`) is a parameter (`EngineBehaviour`): the wrapper
under verification only forwards to it.
-/

/-- A Python string, modelled as its list of characters. -/
abbrev PyStr := List Char

/-- `re.sub("[^A-Za-z0-9_]+", "", ·)` keeps exactly the ASCII letters, the
decimal digits and the underscore; this is the character predicate. -/
def isCleanChar (c : Char) : Bool :=
  (decide ('A' ≤ c) && decide (c ≤ 'Z')) ||
  (decide ('a' ≤ c) && decide (c ≤ 'z')) ||
  (decide ('0' ≤ c) && decide (c ≤ '9')) ||
  (c == '_')

/-- `re.sub("[^A-Za-z0-9_]+", "", name)`: deleting every maximal run of
characters outside `[A-Za-z0-9_]` is deleting every such character. -/
def cleanName (name : PyStr) : PyStr :=
  name.filter isCleanChar

/-- The decimal digit characters used by Python's `str` on a nonnegative
integer. -/
def digitChar : Nat → Char
  | 0 => '0'
  | 1 => '1'
  | 2 => '2'
  | 3 => '3'
  | 4 => '4'
  | 5 => '5'
  | 6 => '6'
  | 7 => '7'
  | 8 => '8'
  | _ => '9'

/-- Fuelled helper for `natStr`: emits the decimal digits of `n`, most
significant first (`n` itself is always enough fuel). -/
def natStrAux : Nat → Nat → PyStr
  | 0, _ => []
  | fuel + 1, n =>
    if n = 0 then [] else natStrAux fuel (n / 10) ++ [digitChar (n % 10)]

/-- Python's `str(n)` for a natural number `n`: its decimal digits, most
significant first. -/
def natStr (n : Nat) : PyStr :=
  if n = 0 then ['0'] else natStrAux n n

/-- The candidate name tried by the deduplication loop at counter value `k`:
`original_name + "_" + str(counter)`. -/
def cand (original : PyStr) (k : Nat) : PyStr :=
  original ++ '_' :: natStr k

/-- The inner `while name in seen` loop of `clean_and_ensure_unique`, run with
explicit fuel: starting from counter value `k`, return the first candidate not
in `seen`.  With fuel exceeding the number of candidates that can be in `seen`
the fuel is never exhausted (proved below). -/
def findFreshAux (seen : List PyStr) (original : PyStr) : Nat → Nat → PyStr
  | 0, k => cand original k
  | fuel + 1, k =>
    if cand original k ∈ seen then findFreshAux seen original fuel (k + 1)
    else cand original k

/-- One step of the `for i, name in enumerate(cleaned_names)` loop: if `name`
is not yet in `seen` it is kept, otherwise counters `1, 2, …` are appended
until the result is fresh.  `seen.length + 1` units of fuel always suffice. -/
def ensureUnique (seen : List PyStr) (name : PyStr) : PyStr :=
  if name ∈ seen then findFreshAux seen name (seen.length + 1) 1 else name

/-- The whole `for` loop over the cleaned names, threading the `seen` set
(only the finally chosen name of each iteration is inserted into `seen`). -/
def uniqueLoop (seen : List PyStr) : List PyStr → List PyStr
  | [] => []
  | name :: rest =>
    ensureUnique seen name :: uniqueLoop (ensureUnique seen name :: seen) rest

/-- `clean_and_ensure_unique(names)`: clean every name, then make the cleaned
names unique by appending `_k` counters. -/
def clean_and_ensure_unique (names : List PyStr) : List PyStr :=
  uniqueLoop [] (names.map cleanName)

/-- Reads a decimal digit character back; a left inverse to `digitChar` on
digits. -/
def charToDigit (c : Char) : Nat :=
  c.toNat - 48

/-- Cell values of a pandas `DataFrame`, modelled as integers: their nature is
irrelevant to the wrapper, which never inspects them. -/
abbrev CellValue := Int

/-- A pandas `Series`: one column of values. -/
abbrev Series := List CellValue

/-- A pandas `DataFrame`: ordered columns, each a label with its values. -/
structure DataFrame where
  cols : List (PyStr × Series)
deriving DecidableEq

/-- The column labels of a `DataFrame`, in order. -/
def DataFrame.colNames (df : DataFrame) : List PyStr :=
  df.cols.map Prod.fst

/-- `df.drop(columns=[c])`: remove every column labelled `c`. -/
def DataFrame.dropCol (df : DataFrame) (c : PyStr) : DataFrame :=
  ⟨df.cols.filter (fun p => decide (p.1 ≠ c))⟩

/-- `df[c]`: the first column labelled `c`, when present (pandas raises
`KeyError` otherwise, modelled by `none`). -/
def DataFrame.getCol (df : DataFrame) (c : PyStr) : Option Series :=
  (df.cols.find? (fun p => decide (p.1 = c))).map Prod.snd

/-- The slice of `schema.data_schema.ClassificationSchema` that
`Classifier.py` reads. -/
structure ClassificationSchema where
  id : PyStr
  target : PyStr
  model_category : PyStr
deriving DecidableEq

/-- The parsed JSON model configuration,
`read_json_as_dict(paths.MODEL_CONFIG_FILE_PATH)`: the keys the wrapper
reads.  The field `include_spec` renders the JSON key `include` (`include` is
a Lean keyword). -/
structure ModelConfig where
  task_time : Nat
  model_time : Nat
  seed_value : Nat
  include_spec : List (PyStr × List PyStr)
deriving DecidableEq

/-- The two scoring metrics the wrapper can choose between
(`autosklearn.metrics.f1` and `autosklearn.metrics.f1_macro`). -/
inductive Metric where
  | f1
  | f1_macro
deriving DecidableEq

/-- The `AutoSklearnClassifier` engine object, identified with the
constructor arguments the wrapper hands to it (its internals are the external
library's).  The field `include_spec` renders the keyword argument `include`
(`include` is a Lean keyword). -/
structure AutoSklearnClassifier where
  time_left_for_this_task : Nat
  per_run_time_limit : Nat
  metric : Metric
  include_spec : List (PyStr × List PyStr)
  seed : Nat
deriving DecidableEq

/-- The result array type of the engine's `predict`/`predict_proba`
(`np.ndarray`); the wrapper never inspects it. -/
abbrev NDArray := List (List Int)

/-- The `Classifier` wrapper object, with the fields `__init__` sets, in
order. -/
structure Classifier where
  _is_trained : Bool
  x : DataFrame
  y : Series
  schema : ClassificationSchema
  model_name : PyStr
  model_config : ModelConfig
  automl : AutoSklearnClassifier
deriving DecidableEq

/-- The behaviour of the external `autosklearn` engine — what `fit` does to
the engine object and what `predict`/`predict_proba` return.  It is a
parameter of the verification: the wrapper only forwards to it. -/
structure EngineBehaviour where
  fitFn : AutoSklearnClassifier → DataFrame → Series → AutoSklearnClassifier
  predictFn : AutoSklearnClassifier → DataFrame → NDArray
  predictProbaFn : AutoSklearnClassifier → DataFrame → NDArray

/-- `Classifier.__init__(train_input, schema)`.  The `model_config` argument
is the parsed contents of the JSON configuration file; pandas raises
`KeyError` when the target column is absent, modelled by `none`. -/
def Classifier.init (model_config : ModelConfig) (train_input : DataFrame)
    (schema : ClassificationSchema) : Option Classifier :=
  match train_input.getCol schema.target with
  | none => none
  | some targetCol =>
    some
      { _is_trained := false
        x := train_input.dropCol schema.target
        y := targetCol
        schema := schema
        model_name := "auto_sklearn_classifier".data
        model_config := model_config
        automl :=
          { time_left_for_this_task := model_config.task_time
            per_run_time_limit := model_config.model_time
            metric :=
              if schema.model_category = "binary_classification".data then Metric.f1
              else Metric.f1_macro
            include_spec := model_config.include_spec
            seed := model_config.seed_value } }

/-- `train`: fit the engine on `self.x`, `self.y`, then set `_is_trained`. -/
def Classifier.train (eng : EngineBehaviour) (c : Classifier) : Classifier :=
  { c with automl := eng.fitFn c.automl c.x c.y, _is_trained := true }

/-- `predict`: forward `inputs` to `self.automl.predict`. -/
def Classifier.predict (eng : EngineBehaviour) (c : Classifier)
    (inputs : DataFrame) : NDArray :=
  eng.predictFn c.automl inputs

/-- `predict_proba`: forward `inputs` to `self.automl.predict_proba`. -/
def Classifier.predict_proba (eng : EngineBehaviour) (c : Classifier)
    (inputs : DataFrame) : NDArray :=
  eng.predictProbaFn c.automl inputs

/-- A filesystem path. -/
abbrev FsPath := PyStr

/-- `PREDICTOR_FILE_NAME = "predictor.joblib"`. -/
def PREDICTOR_FILE_NAME : FsPath :=
  ("predictor.joblib").data

/-- `os.path.join(dir, fname)` for a directory path without trailing
slash. -/
def joinPath (dir fname : FsPath) : FsPath :=
  dir ++ '/' :: fname

/-- The filesystem as `joblib` and `os` see it: the existing directories and
the objects stored in files. -/
structure FileSystem where
  dirs : List FsPath
  files : List (FsPath × Classifier)
deriving DecidableEq

/-- `joblib.dump(obj, path)`: (over)write the object at `path`. -/
def dumpFile (fs : FileSystem) (p : FsPath) (c : Classifier) : FileSystem :=
  ⟨fs.dirs, (p, c) :: fs.files.filter (fun q => decide (q.1 ≠ p))⟩

/-- `joblib.load(path)`: the stored object, when the file exists. -/
def loadFile (fs : FileSystem) (p : FsPath) : Option Classifier :=
  (fs.files.find? (fun q => decide (q.1 = p))).map Prod.snd

/-- `save`: raise `NotFittedError` when not trained, else dump `self` at
`os.path.join(model_dir_path, PREDICTOR_FILE_NAME)`. -/
def Classifier.save (c : Classifier) (model_dir_path : FsPath)
    (fs : FileSystem) : Except PyStr FileSystem :=
  if ¬ c._is_trained then Except.error ("Model is not fitted yet.").data
  else Except.ok (dumpFile fs (joinPath model_dir_path PREDICTOR_FILE_NAME) c)

/-- `load`: read the object stored at
`os.path.join(model_dir_path, PREDICTOR_FILE_NAME)` (a missing file raises,
modelled by `none`). -/
def Classifier.load (model_dir_path : FsPath) (fs : FileSystem) :
    Option Classifier :=
  loadFile fs (joinPath model_dir_path PREDICTOR_FILE_NAME)

/-- `predict_with_model(model, data, return_proba=False)`. -/
def predict_with_model (eng : EngineBehaviour) (model : Classifier)
    (data : DataFrame) (return_proba : Bool := false) : NDArray :=
  if return_proba then model.predict_proba eng data else model.predict eng data

/-- `save_predictor_model(model, predictor_dir_path)`: create the directory
when it does not exist (`os.path.exists` / `os.makedirs`), then
`model.save(predictor_dir_path)`. -/
def save_predictor_model (model : Classifier) (predictor_dir_path : FsPath)
    (fs : FileSystem) : Except PyStr FileSystem :=
  model.save predictor_dir_path
    (if predictor_dir_path ∈ fs.dirs then fs
     else ⟨predictor_dir_path :: fs.dirs, fs.files⟩)

/-- `load_predictor_model(predictor_dir_path)`. -/
def load_predictor_model (predictor_dir_path : FsPath) (fs : FileSystem) :
    Option Classifier :=
  Classifier.load predictor_dir_path fs

/-- State-passing rendering of `predict`: the body assigns no field of
`self`, so the post-state (second component) is the receiver unchanged. -/
def Classifier.predictS (eng : EngineBehaviour) (c : Classifier)
    (inputs : DataFrame) : NDArray × Classifier :=
  (eng.predictFn c.automl inputs, c)

/-- State-passing rendering of `predict_proba`; as for `predictS` the body
assigns no field of `self`. -/
def Classifier.predict_probaS (eng : EngineBehaviour) (c : Classifier)
    (inputs : DataFrame) : NDArray × Classifier :=
  (eng.predictProbaFn c.automl inputs, c)

/-- State-passing rendering of `save`: on the `NotFittedError` path the
method raises before any effect, and on the success path it only writes a
file; on neither path is a field of `self` assigned. -/
def Classifier.saveS (c : Classifier) (model_dir_path : FsPath)
    (fs : FileSystem) : Except PyStr FileSystem × Classifier :=
  if ¬ c._is_trained then (Except.error ("Model is not fitted yet.").data, c)
  else (Except.ok (dumpFile fs (joinPath model_dir_path PREDICTOR_FILE_NAME) c), c)

/-- A concrete model configuration, for witnesses. -/
def exCfg : ModelConfig :=
  { task_time := 600
    model_time := 60
    seed_value := 42
    include_spec := [(("classifier").data, [("random_forest").data])] }

/-- A concrete schema, for witnesses. -/
def exSchema : ClassificationSchema :=
  { id := ("id").data
    target := ['t']
    model_category := ("binary_classification").data }

/-- A concrete training `DataFrame` with one dirty feature column label
(`a%`) and the target column `t`, for witnesses. -/
def exDF : DataFrame :=
  ⟨[(['a', '%'], [1, 2]), (['t'], [0, 1])]⟩

/-- A concrete engine behaviour, for witnesses. -/
def exEngine : EngineBehaviour :=
  { fitFn := fun a _ _ => a
    predictFn := fun _ _ => [[0], [1]]
    predictProbaFn := fun _ _ => [[0, 1], [1, 0]] }

/-- An initially empty filesystem, for witnesses. -/
def exFS : FileSystem :=
  ⟨[], []⟩

/-- The classifier `Classifier.__init__` builds from `exCfg`, `exDF` and
`exSchema`, for witnesses. -/
def exClf : Classifier :=
  { _is_trained := false
    x := exDF.dropCol exSchema.target
    y := [0, 1]
    schema := exSchema
    model_name := ("auto_sklearn_classifier").data
    model_config := exCfg
    automl :=
      { time_left_for_this_task := 600
        per_run_time_limit := 60
        metric := Metric.f1
        include_spec := exCfg.include_spec
        seed := 42 } }

/-- `exClf` after training, for witnesses. -/
def exClfTrained : Classifier :=
  { exClf with _is_trained := true }

theorem charToDigit_digitChar {d : Nat} (hd : d < 10) :
    charToDigit (digitChar d) = d := by
  interval_cases d <;> decide

theorem natStrAux_eq_digits :
    ∀ fuel n, n ≤ fuel → natStrAux fuel n = ((Nat.digits 10 n).map digitChar).reverse := by
  intro fuel
  induction fuel with
  | zero =>
    intro n hn
    interval_cases n
    simp [natStrAux]
  | succ f ih =>
    intro n hn
    by_cases h0 : n = 0
    · subst h0; simp [natStrAux]
    · have hpos : 0 < n := Nat.pos_of_ne_zero h0
      have hdivlt : n / 10 < n := Nat.div_lt_self hpos (by norm_num)
      have hdiv : n / 10 ≤ f := by omega
      rw [natStrAux, if_neg h0, ih _ hdiv,
        Nat.digits_def' (by norm_num : 1 < 10) hpos]
      simp

theorem natStr_eq_digits {n : Nat} (hn : 0 < n) :
    natStr n = ((Nat.digits 10 n).map digitChar).reverse := by
  rw [natStr, if_neg (Nat.pos_iff_ne_zero.mp hn)]
  exact natStrAux_eq_digits n n le_rfl

theorem natStr_inj {m n : Nat} (hm : 0 < m) (hn : 0 < n)
    (h : natStr m = natStr n) : m = n := by
  rw [natStr_eq_digits hm, natStr_eq_digits hn, List.reverse_inj] at h
  have hl : ∀ l : List Nat, (∀ d ∈ l, d < 10) →
      (l.map digitChar).map charToDigit = l := by
    intro l hlt
    rw [List.map_map]
    have : l.map (charToDigit ∘ digitChar) = l.map id :=
      List.map_congr_left fun d hd => charToDigit_digitChar (hlt d hd)
    simpa using this
  have hdig : Nat.digits 10 m = Nat.digits 10 n := by
    rw [← hl (Nat.digits 10 m) (fun d hd => Nat.digits_lt_base (by norm_num) hd),
      ← hl (Nat.digits 10 n) (fun d hd => Nat.digits_lt_base (by norm_num) hd), h]
  calc m = Nat.ofDigits 10 (Nat.digits 10 m) := (Nat.ofDigits_digits 10 m).symm
    _ = Nat.ofDigits 10 (Nat.digits 10 n) := by rw [hdig]
    _ = n := Nat.ofDigits_digits 10 n

theorem cand_inj {original : PyStr} {j k : Nat} (hj : 0 < j) (hk : 0 < k)
    (h : cand original j = cand original k) : j = k := by
  unfold cand at h
  have h2 : ('_' :: natStr j : PyStr) = '_' :: natStr k :=
    List.append_cancel_left h
  injection h2 with h1 h3
  exact natStr_inj hj hk h3

theorem findFreshAux_not_mem (seen : List PyStr) (original : PyStr) :
    ∀ fuel k,
      ((List.range' k fuel).filter (fun j => decide (cand original j ∈ seen))).length < fuel →
      findFreshAux seen original fuel k ∉ seen := by
  intro fuel
  induction fuel with
  | zero =>
    intro k h
    exact absurd h (Nat.not_lt_zero _)
  | succ f ih =>
    intro k h
    by_cases hc : cand original k ∈ seen
    · have hdec : (fun j => decide (cand original j ∈ seen)) k = true := by
        simp [hc]
      rw [List.range'_succ, List.filter_cons, if_pos hdec, List.length_cons] at h
      simp only [findFreshAux, if_pos hc]
      exact ih (k + 1) (by omega)
    · simp only [findFreshAux, if_neg hc]
      exact hc

theorem filter_cand_length_le (seen : List PyStr) (original : PyStr) (n : Nat) :
    ((List.range' 1 n).filter (fun j => decide (cand original j ∈ seen))).length ≤
      seen.length := by
  set l := (List.range' 1 n).filter (fun j => decide (cand original j ∈ seen)) with hl
  have hnodup : l.Nodup := (List.nodup_range' 1 n 1 (by norm_num)).filter _
  have hpos : ∀ j ∈ l, 0 < j := by
    intro j hj
    have : j ∈ List.range' 1 n := List.mem_of_mem_filter hj
    rcases List.mem_range'.mp this with ⟨i, _, hji⟩
    omega
  have hmapped : (l.map (cand original)).Nodup := by
    refine List.Nodup.map_on ?_ hnodup
    intro x hx y hy hxy
    exact cand_inj (hpos x hx) (hpos y hy) hxy
  have hsub : ∀ s ∈ l.map (cand original), s ∈ seen := by
    intro s hs
    rcases List.mem_map.mp hs with ⟨j, hj, rfl⟩
    have := List.of_mem_filter hj
    exact of_decide_eq_true this
  have hcard : (l.map (cand original)).length ≤ seen.length := by
    calc (l.map (cand original)).length
        = (l.map (cand original)).toFinset.card :=
          (List.toFinset_card_of_nodup hmapped).symm
      _ ≤ seen.toFinset.card := by
          apply Finset.card_le_card
          intro s hs
          exact List.mem_toFinset.mpr (hsub s (List.mem_toFinset.mp hs))
      _ ≤ seen.length := List.toFinset_card_le seen
  simpa using hcard

theorem ensureUnique_not_mem (seen : List PyStr) (name : PyStr) :
    ensureUnique seen name ∉ seen := by
  unfold ensureUnique
  by_cases h : name ∈ seen
  · rw [if_pos h]
    apply findFreshAux_not_mem
    have := filter_cand_length_le seen name (seen.length + 1)
    omega
  · rw [if_neg h]
    exact h

theorem findFreshAux_shape (seen : List PyStr) (original : PyStr) :
    ∀ fuel k, ∃ j, k ≤ j ∧ findFreshAux seen original fuel k = cand original j := by
  intro fuel
  induction fuel with
  | zero =>
    intro k
    exact ⟨k, le_rfl, rfl⟩
  | succ f ih =>
    intro k
    by_cases hc : cand original k ∈ seen
    · rcases ih (k + 1) with ⟨j, hj, heq⟩
      exact ⟨j, by omega, by simp only [findFreshAux, if_pos hc]; exact heq⟩
    · exact ⟨k, le_rfl, by simp only [findFreshAux, if_neg hc]⟩

theorem ensureUnique_shape (seen : List PyStr) (name : PyStr) :
    ensureUnique seen name = name ∨
      ∃ k, 1 ≤ k ∧ ensureUnique seen name = cand name k := by
  unfold ensureUnique
  by_cases h : name ∈ seen
  · rw [if_pos h]
    rcases findFreshAux_shape seen name (seen.length + 1) 1 with ⟨j, hj, heq⟩
    exact Or.inr ⟨j, hj, heq⟩
  · rw [if_neg h]
    exact Or.inl rfl

theorem digitChar_clean (d : Nat) : isCleanChar (digitChar d) = true := by
  unfold digitChar
  split <;> decide

theorem natStr_chars (k : Nat) : ∀ c ∈ natStr k, isCleanChar c = true := by
  intro c hc
  by_cases h0 : k = 0
  · subst h0
    rw [show natStr 0 = ['0'] from rfl, List.mem_singleton] at hc
    subst hc
    decide
  · rw [natStr_eq_digits (Nat.pos_of_ne_zero h0), List.mem_reverse] at hc
    rcases List.mem_map.mp hc with ⟨d, _, rfl⟩
    exact digitChar_clean d

theorem ensureUnique_chars {seen : List PyStr} {name : PyStr}
    (h : ∀ c ∈ name, isCleanChar c = true) :
    ∀ c ∈ ensureUnique seen name, isCleanChar c = true := by
  rcases ensureUnique_shape seen name with heq | ⟨k, _, heq⟩
  · rw [heq]; exact h
  · rw [heq]
    intro c hc
    unfold cand at hc
    rcases List.mem_append.mp hc with hc | hc
    · exact h c hc
    · rcases List.mem_cons.mp hc with rfl | hc
      · decide
      · exact natStr_chars k c hc

theorem uniqueLoop_length : ∀ (names seen : List PyStr),
    (uniqueLoop seen names).length = names.length := by
  intro names
  induction names with
  | nil => intro seen; rfl
  | cons name rest ih => intro seen; simp [uniqueLoop, ih]

theorem uniqueLoop_fresh : ∀ (names seen : List PyStr),
    ∀ x ∈ uniqueLoop seen names, x ∉ seen := by
  intro names
  induction names with
  | nil =>
    intro seen x hx
    simp [uniqueLoop] at hx
  | cons name rest ih =>
    intro seen x hx
    rcases List.mem_cons.mp hx with rfl | hx
    · exact ensureUnique_not_mem seen name
    · intro hxs
      exact ih (ensureUnique seen name :: seen) x hx (List.mem_cons_of_mem _ hxs)

theorem uniqueLoop_nodup : ∀ (names seen : List PyStr), (uniqueLoop seen names).Nodup := by
  intro names
  induction names with
  | nil => intro seen; simp [uniqueLoop]
  | cons name rest ih =>
    intro seen
    refine List.nodup_cons.mpr ⟨?_, ih _⟩
    intro hmem
    exact uniqueLoop_fresh rest (ensureUnique seen name :: seen) _ hmem
      (List.mem_cons_self _ _)

theorem uniqueLoop_forall2 : ∀ (names seen : List PyStr),
    List.Forall₂ (fun nm out => out = nm ∨ ∃ k, 1 ≤ k ∧ out = cand nm k)
      names (uniqueLoop seen names) := by
  intro names
  induction names with
  | nil => intro seen; exact List.Forall₂.nil
  | cons name rest ih =>
    intro seen
    exact List.Forall₂.cons (ensureUnique_shape seen name) (ih _)

theorem uniqueLoop_chars : ∀ (names seen : List PyStr),
    (∀ nm ∈ names, ∀ c ∈ nm, isCleanChar c = true) →
    ∀ nm ∈ uniqueLoop seen names, ∀ c ∈ nm, isCleanChar c = true := by
  intro names
  induction names with
  | nil =>
    intro seen _ nm hnm
    simp [uniqueLoop] at hnm
  | cons name rest ih =>
    intro seen h nm hnm
    rcases List.mem_cons.mp hnm with rfl | hnm
    · exact ensureUnique_chars (h name (List.mem_cons_self _ _))
    · exact ih _ (fun x hx => h x (List.mem_cons_of_mem _ hx)) nm hnm

theorem uniqueLoop_id : ∀ (names seen : List PyStr), names.Nodup →
    (∀ x ∈ names, x ∉ seen) → uniqueLoop seen names = names := by
  intro names
  induction names with
  | nil => intro seen _ _; rfl
  | cons name rest ih =>
    intro seen hnd hfresh
    have h1 : name ∉ seen := hfresh name (List.mem_cons_self _ _)
    have he : ensureUnique seen name = name := by
      unfold ensureUnique
      rw [if_neg h1]
    have h2 : uniqueLoop (name :: seen) rest = rest := by
      apply ih
      · exact (List.nodup_cons.mp hnd).2
      · intro x hx hxs
        rcases List.mem_cons.mp hxs with rfl | hxs
        · exact (List.nodup_cons.mp hnd).1 hx
        · exact hfresh x (List.mem_cons_of_mem _ hx) hxs
    simp only [uniqueLoop, he, h2]

example :
    clean_and_ensure_unique
      [['3', 'P', '%'], ['3', 'P'], ['N', 'a', 'm', 'e'], ['A', 'g', 'e', '%'], ['A', 'g', 'e']] =
      [['3', 'P'], ['3', 'P', '_', '1'], ['N', 'a', 'm', 'e'], ['A', 'g', 'e'], ['A', 'g', 'e', '_', '1']] := by
  decide

/-- C1: for every list of strings, `clean_and_ensure_unique` returns a list
of the same length whose elements are pairwise distinct. -/
theorem clean_and_ensure_unique_length_nodup (names : List PyStr) :
    (clean_and_ensure_unique names).length = names.length ∧
      (clean_and_ensure_unique names).Nodup := by
  constructor
  · rw [clean_and_ensure_unique, uniqueLoop_length, List.length_map]
  · exact uniqueLoop_nodup _ _

/-- C2: every character of every name returned by `clean_and_ensure_unique`
is an ASCII letter, a digit or an underscore; moreover each output name is
the cleaned input name at its position, either kept as is or extended by a
suffix consisting of an underscore and the decimal digits of a counter
`k ≥ 1`. -/
theorem clean_and_ensure_unique_chars_shape (names : List PyStr) :
    (∀ nm ∈ clean_and_ensure_unique names, ∀ c ∈ nm, isCleanChar c = true) ∧
      List.Forall₂
        (fun nm out => out = cleanName nm ∨
          ∃ k, 1 ≤ k ∧ out = cleanName nm ++ '_' :: natStr k)
        names (clean_and_ensure_unique names) := by
  constructor
  · apply uniqueLoop_chars
    intro nm hnm c hc
    rcases List.mem_map.mp hnm with ⟨s, _, rfl⟩
    exact List.of_mem_filter (p := isCleanChar) (by simpa [cleanName] using hc)
  · have h := uniqueLoop_forall2 (names.map cleanName) []
    rw [List.forall₂_map_left_iff] at h
    simpa [cand] using h

/-- C8: `clean_and_ensure_unique` is idempotent — applied to its own output
it returns that output unchanged. -/
theorem clean_and_ensure_unique_idem (names : List PyStr) :
    clean_and_ensure_unique (clean_and_ensure_unique names) =
      clean_and_ensure_unique names := by
  have hchars : ∀ nm ∈ clean_and_ensure_unique names, ∀ c ∈ nm,
      isCleanChar c = true := by
    apply uniqueLoop_chars
    intro nm hnm c hc
    rcases List.mem_map.mp hnm with ⟨s, _, rfl⟩
    exact List.of_mem_filter (p := isCleanChar) (by simpa [cleanName] using hc)
  have hmap : (clean_and_ensure_unique names).map cleanName =
      clean_and_ensure_unique names := by
    have hid : ∀ nm ∈ clean_and_ensure_unique names, cleanName nm = nm := by
      intro nm hnm
      exact List.filter_eq_self.mpr (hchars nm hnm)
    calc (clean_and_ensure_unique names).map cleanName
        = (clean_and_ensure_unique names).map id := List.map_congr_left hid
      _ = clean_and_ensure_unique names := List.map_id _
  calc clean_and_ensure_unique (clean_and_ensure_unique names)
      = uniqueLoop [] ((clean_and_ensure_unique names).map cleanName) := rfl
    _ = uniqueLoop [] (clean_and_ensure_unique names) := by rw [hmap]
    _ = clean_and_ensure_unique names :=
        uniqueLoop_id _ _ (uniqueLoop_nodup _ _)
          (fun x _ hx => List.not_mem_nil x hx)

theorem loadFile_dumpFile (fs : FileSystem) (p : FsPath) (c : Classifier) :
    loadFile (dumpFile fs p c) p = some c := by
  unfold loadFile dumpFile
  rw [List.find?_cons_of_pos _ (by simp)]
  rfl

theorem mem_files_dumpFile (fs : FileSystem) (p : FsPath) (c : Classifier) :
    (p, c) ∈ (dumpFile fs p c).files := by
  unfold dumpFile
  exact List.mem_cons_self _ _

theorem dumpFile_dirs (fs : FileSystem) (p : FsPath) (c : Classifier) :
    (dumpFile fs p c).dirs = fs.dirs := rfl

/-- C3: `save` raises `NotFittedError` exactly when `_is_trained` is false,
and when trained writes `predictor.joblib` into the given directory; this is
the module's only fitted guard — `predict`, `predict_proba`, `train` and
`load` behave identically whatever the value of `_is_trained`. -/
theorem save_guard_unique (c : Classifier) (dir : FsPath) (fs : FileSystem)
    (eng : EngineBehaviour) (inputs : DataFrame) (b : Bool) :
    ((∃ e, c.save dir fs = Except.error e) ↔ c._is_trained = false) ∧
    (c._is_trained = true →
      c.save dir fs =
          Except.ok (dumpFile fs (joinPath dir PREDICTOR_FILE_NAME) c) ∧
        ∀ fs', c.save dir fs = Except.ok fs' →
          (joinPath dir PREDICTOR_FILE_NAME, c) ∈ fs'.files) ∧
    (Classifier.predict eng { c with _is_trained := b } inputs =
      Classifier.predict eng c inputs) ∧
    (Classifier.predict_proba eng { c with _is_trained := b } inputs =
      Classifier.predict_proba eng c inputs) ∧
    (Classifier.train eng { c with _is_trained := b } =
      Classifier.train eng c) ∧
    (Classifier.load dir fs = loadFile fs (joinPath dir PREDICTOR_FILE_NAME)) := by
  refine ⟨?_, ?_, rfl, rfl, rfl, rfl⟩
  · constructor
    · rintro ⟨e, he⟩
      by_contra hb
      have ht : c._is_trained = true := by
        cases hv : c._is_trained
        · exact absurd hv hb
        · rfl
      unfold Classifier.save at he
      rw [ht] at he
      simp at he
    · intro hf
      refine ⟨("Model is not fitted yet.").data, ?_⟩
      unfold Classifier.save
      rw [hf]
      simp
  · intro ht
    have hok : c.save dir fs =
        Except.ok (dumpFile fs (joinPath dir PREDICTOR_FILE_NAME) c) := by
      unfold Classifier.save
      rw [ht]
      simp
    refine ⟨hok, ?_⟩
    intro fs' hfs'
    rw [hok] at hfs'
    injection hfs' with h
    rw [← h]
    exact mem_files_dumpFile fs _ c

/-- Witness for `save_guard_unique` at concrete inputs: the trained example
classifier saves successfully, and the untrained one errors. -/
theorem save_guard_unique_witness :
    exClfTrained.save ['m'] exFS =
      Except.ok (dumpFile exFS (joinPath ['m'] PREDICTOR_FILE_NAME) exClfTrained) :=
  ((save_guard_unique exClfTrained ['m'] exFS exEngine exDF true).2.1 rfl).1

/-- C4: for a trained classifier, `save_predictor_model` followed by
`load_predictor_model` on the same directory recovers the very same
classifier, the directory having been created when missing. -/
theorem save_load_roundtrip (model : Classifier) (dir : FsPath)
    (fs : FileSystem) (h : model._is_trained = true) :
    ∃ fs', save_predictor_model model dir fs = Except.ok fs' ∧
      load_predictor_model dir fs' = some model ∧
      dir ∈ fs'.dirs ∧
      fs'.dirs = (if dir ∈ fs.dirs then fs.dirs else dir :: fs.dirs) := by
  have hsave : save_predictor_model model dir fs =
      Except.ok (dumpFile (if dir ∈ fs.dirs then fs else ⟨dir :: fs.dirs, fs.files⟩)
        (joinPath dir PREDICTOR_FILE_NAME) model) := by
    unfold save_predictor_model Classifier.save
    rw [h]
    simp
  refine ⟨_, hsave, ?_, ?_, ?_⟩
  · unfold load_predictor_model Classifier.load
    exact loadFile_dumpFile _ _ _
  · rw [dumpFile_dirs]
    by_cases hd : dir ∈ fs.dirs
    · rw [if_pos hd]
      exact hd
    · rw [if_neg hd]
      exact List.mem_cons_self _ _
  · rw [dumpFile_dirs]
    split <;> rfl

/-- Witness for `save_load_roundtrip`: the trained example classifier
round-trips through an initially empty filesystem. -/
theorem save_load_roundtrip_witness :
    exClfTrained._is_trained = true ∧
      ∃ fs', save_predictor_model exClfTrained ['m'] exFS = Except.ok fs' ∧
        load_predictor_model ['m'] fs' = some exClfTrained ∧
        ['m'] ∈ fs'.dirs ∧
        fs'.dirs = (if ['m'] ∈ exFS.dirs then exFS.dirs else ['m'] :: exFS.dirs) :=
  ⟨rfl, save_load_roundtrip exClfTrained ['m'] exFS rfl⟩

/-- C6: `predict_with_model` returns exactly the engine's `predict_proba`
output when `return_proba` is true and its `predict` output otherwise (the
default being false), with the data forwarded untouched. -/
theorem predict_with_model_passthrough (eng : EngineBehaviour)
    (model : Classifier) (data : DataFrame) :
    predict_with_model eng model data true = eng.predictProbaFn model.automl data ∧
    predict_with_model eng model data false = eng.predictFn model.automl data ∧
    predict_with_model eng model data = eng.predictFn model.automl data :=
  ⟨rfl, rfl, rfl⟩

/-- C7: `__init__` builds the engine object from the JSON model config —
`time_left_for_this_task` from `task_time`, `per_run_time_limit` from
`model_time`, `seed` from `seed_value`, `include` from `include`, and the
metric is `f1` for `binary_classification` and `f1_macro` otherwise. -/
theorem init_automl_config (cfg : ModelConfig) (df : DataFrame)
    (sch : ClassificationSchema) (c : Classifier)
    (h : Classifier.init cfg df sch = some c) :
    c.automl.time_left_for_this_task = cfg.task_time ∧
    c.automl.per_run_time_limit = cfg.model_time ∧
    c.automl.seed = cfg.seed_value ∧
    c.automl.include_spec = cfg.include_spec ∧
    c.automl.metric =
      (if sch.model_category = ("binary_classification").data then Metric.f1
       else Metric.f1_macro) := by
  unfold Classifier.init at h
  cases hg : df.getCol sch.target with
  | none => rw [hg] at h; exact absurd h (by simp)
  | some targetCol =>
    rw [hg] at h
    injection h with h
    subst h
    exact ⟨rfl, rfl, rfl, rfl, rfl⟩

/-- Witness for `init_automl_config` at the concrete example inputs. -/
theorem init_automl_config_witness :
    exClf.automl.time_left_for_this_task = exCfg.task_time ∧
    exClf.automl.per_run_time_limit = exCfg.model_time ∧
    exClf.automl.seed = exCfg.seed_value ∧
    exClf.automl.include_spec = exCfg.include_spec ∧
    exClf.automl.metric =
      (if exSchema.model_category = ("binary_classification").data then Metric.f1
       else Metric.f1_macro) :=
  init_automl_config exCfg exDF exSchema exClf (by decide)

/-- C9: when the training frame contains the schema's target column,
`__init__` succeeds, sets `x` to the frame with exactly the target column
removed (other columns kept, in order), `y` to that target column, stores the
schema unchanged and initialises `_is_trained` to false. -/
theorem init_fields (cfg : ModelConfig) (df : DataFrame)
    (sch : ClassificationSchema) (targetCol : Series)
    (h : df.getCol sch.target = some targetCol) :
    ∃ c, Classifier.init cfg df sch = some c ∧
      c.x = df.dropCol sch.target ∧
      c.x.cols = df.cols.filter (fun p => decide (p.1 ≠ sch.target)) ∧
      c.y = targetCol ∧
      c.schema = sch ∧
      c._is_trained = false ∧
      c.model_config = cfg := by
  unfold Classifier.init
  rw [h]
  exact ⟨_, rfl, rfl, rfl, rfl, rfl, rfl, rfl⟩

/-- Witness for `init_fields` at the concrete example inputs. -/
theorem init_fields_witness :
    exDF.getCol exSchema.target = some [0, 1] ∧
      ∃ c, Classifier.init exCfg exDF exSchema = some c ∧
        c.x = exDF.dropCol exSchema.target ∧
        c.x.cols = exDF.cols.filter (fun p => decide (p.1 ≠ exSchema.target)) ∧
        c.y = [0, 1] ∧
        c.schema = exSchema ∧
        c._is_trained = false ∧
        c.model_config = exCfg :=
  ⟨by decide, init_fields exCfg exDF exSchema [0, 1] (by decide)⟩

/-- C10: `predict`, `predict_proba` and `save` leave every field of the
classifier unchanged — their state-passing renderings return the receiver
as the post-state (for `save` on both the error and the success path) and
the same value as the plain definitions. -/
theorem methods_frame (eng : EngineBehaviour) (c : Classifier)
    (inputs : DataFrame) (dir : FsPath) (fs : FileSystem) :
    (Classifier.predictS eng c inputs).2 = c ∧
    (Classifier.predictS eng c inputs).1 = Classifier.predict eng c inputs ∧
    (Classifier.predict_probaS eng c inputs).2 = c ∧
    (Classifier.predict_probaS eng c inputs).1 =
      Classifier.predict_proba eng c inputs ∧
    (Classifier.saveS c dir fs).2 = c ∧
    (Classifier.saveS c dir fs).1 = Classifier.save c dir fs := by
  refine ⟨rfl, rfl, rfl, rfl, ?_, ?_⟩
  · unfold Classifier.saveS
    split <;> rfl
  · unfold Classifier.saveS Classifier.save
    split <;> rfl

/-- C5 counterexample: on a concrete training frame whose only feature column
is labelled `a%`, the classifier stores — and `train` hands to the engine —
the label `a%` unchanged, while `clean_and_ensure_unique` of the dropped
frame's labels is `a`: the column names passed to the AutoML engine are not
the sanitized ones. -/
theorem sanitize_not_applied_cex :
    Classifier.init exCfg exDF exSchema = some exClf ∧
    exClf.x.colNames = [['a', '%']] ∧
    clean_and_ensure_unique ((exDF.dropCol exSchema.target).colNames) = [['a']] ∧
    exClf.x.colNames ≠
      clean_and_ensure_unique ((exDF.dropCol exSchema.target).colNames) :=
  ⟨by decide, by decide, by decide, by decide⟩

/-- C5 amended: `clean_and_ensure_unique` is defined but never invoked by the
`Classifier`; the stored training frame keeps the original post-drop column
labels, `train` passes `self.x`/`self.y` to the engine exactly as stored, and
`predict`/`predict_proba` forward their input frames unaltered. -/
theorem sanitize_not_applied (cfg : ModelConfig) (df : DataFrame)
    (sch : ClassificationSchema) (c : Classifier) (eng : EngineBehaviour)
    (inputs : DataFrame) (h : Classifier.init cfg df sch = some c) :
    c.x.colNames = (df.dropCol sch.target).colNames ∧
    Classifier.train eng c =
      { c with automl := eng.fitFn c.automl c.x c.y, _is_trained := true } ∧
    Classifier.predict eng c inputs = eng.predictFn c.automl inputs ∧
    Classifier.predict_proba eng c inputs = eng.predictProbaFn c.automl inputs := by
  unfold Classifier.init at h
  cases hg : df.getCol sch.target with
  | none =>
    rw [hg] at h
    exact absurd h (by simp)
  | some targetCol =>
    rw [hg] at h
    injection h with h
    subst h
    exact ⟨rfl, rfl, rfl, rfl⟩

/-- Witness for `sanitize_not_applied` at the concrete example inputs. -/
theorem sanitize_not_applied_witness :
    exClf.x.colNames = (exDF.dropCol exSchema.target).colNames ∧
    Classifier.train exEngine exClf =
      { exClf with
          automl := exEngine.fitFn exClf.automl exClf.x exClf.y
          _is_trained := true } ∧
    Classifier.predict exEngine exClf exDF = exEngine.predictFn exClf.automl exDF ∧
    Classifier.predict_proba exEngine exClf exDF =
      exEngine.predictProbaFn exClf.automl exDF :=
  sanitize_not_applied exCfg exDF exSchema exClf exEngine exDF (by decide)
